import Mathlib

/-!
Verification of the frame-driven GPU resource lifecycle manager and the
asynchronous asset-loading orchestration of the claygl `App3D` helper
(`src/application.js`).

The sweep model embeds `markUsed`, `updateUsed`, `checkAndDispose` and
`App3D.prototype._collectResources` together with the per-frame handler
registered on the timeline.  Resources (textures, geometries) are
identified by natural numbers; the JavaScript `__used__` field (which is
`undefined` until first touched, and `undefined || 0 = 0`) is embedded as
a total counter function defaulting to `0`.
-/

namespace ClayApp

/-- Load state of a texture resource (`pending`, `ready`, `error`). -/
inductive LoadState where
  | pending
  | ready
  | error
deriving DecidableEq, Repr

/-- A texture reference appearing in the scene: the resource identity plus
its current load state.  The collector never inspects the load state. -/
structure SceneTex where
  id : Nat
  state : LoadState
deriving DecidableEq, Repr

/-- Value of one material uniform, as seen by `_collectResources`:
a texture (`val instanceof Texture`), an array whose entries may be
textures, or anything else. -/
inductive UniformSceneVal where
  | tex (t : SceneTex)
  | arr (items : List (Option SceneTex))
  | other
deriving DecidableEq, Repr

/-- A renderable: one geometry plus its material uniform values, in the
iteration order of `material.uniforms`. -/
structure Renderable where
  geometry : Nat
  uniforms : List UniformSceneVal
deriving DecidableEq, Repr

/-- The per-frame scene view walked by the collector: the opaque queue,
the transparent queue, and the lights (`some` = a light with a cubemap). -/
structure SceneFrame where
  opaqueList : List Renderable
  transparentList : List Renderable
  lights : List (Option SceneTex)
deriving DecidableEq, Repr

/-- Texture ids referenced by one uniform value, in traversal order. -/
def texRefsOfUniform : UniformSceneVal → List Nat
  | .tex t => [t.id]
  | .arr items => items.filterMap (fun o => o.map SceneTex.id)
  | .other => []

/-- Texture ids referenced by one renderable, in traversal order. -/
def texRefsOfRenderable (r : Renderable) : List Nat :=
  (r.uniforms.map texRefsOfUniform).flatten

/-- All texture ids recorded by `_collectResources` on one frame, in
order: opaque queue, transparent queue, then light cubemaps. -/
def sceneTexRefs (s : SceneFrame) : List Nat :=
  ((s.opaqueList ++ s.transparentList).map texRefsOfRenderable).flatten
    ++ s.lights.filterMap (fun o => o.map SceneTex.id)

/-- All geometry ids recorded by `_collectResources` on one frame: one
per renderable, opaque queue first. -/
def sceneGeoRefs (s : SceneFrame) : List Nat :=
  (s.opaqueList ++ s.transparentList).map Renderable.geometry

/-- One counter increment, embedding `resource.__used__ = (resource.__used__ || 0) + 1`. -/
def bump (f : Nat → Nat) (id : Nat) : Nat → Nat :=
  fun r => if r = id then f r + 1 else f r

/-- Embeds `updateUsed(resource, list)`: push the resource onto the new
snapshot unconditionally, then increment its usage counter. -/
def updateUsed (id : Nat) (acc : List Nat × (Nat → Nat)) : List Nat × (Nat → Nat) :=
  (acc.1 ++ [id], bump acc.2 id)

/-- Run `updateUsed` over every reference recorded during a traversal,
starting from an empty new snapshot. -/
def collect (refs : List Nat) (used : Nat → Nat) : List Nat × (Nat → Nat) :=
  refs.foldl (fun acc id => updateUsed id acc) ([], used)

/-- Embeds `markUsed(resourceList)`: reset the counter of every entry of
the previous snapshot to `0`. -/
def markUsed (lst : List Nat) (used : Nat → Nat) : Nat → Nat :=
  lst.foldl (fun f id => fun r => if r = id then 0 else f r) used

/-- Embeds `checkAndDispose(renderer, resourceList)`: walk the previous
snapshot and dispose every entry whose counter is falsy; the returned
list is the sequence of dispose calls (with multiplicity, in order). -/
def checkAndDispose (lst : List Nat) (used : Nat → Nat) : List Nat :=
  lst.filter (fun id => used id == 0)

/-- State carried by the frame handler across frames: the previous
texture/geometry snapshots (`gTexturesList`, `gGeometriesList`) and the
current `__used__` counters of all resources. -/
structure SweepState where
  texList : List Nat
  geoList : List Nat
  texUsed : Nat → Nat
  geoUsed : Nat → Nat

/-- Initial state: empty snapshots, all `__used__` fields undefined
(falsy, i.e. `0`). -/
def initSweepState : SweepState :=
  ⟨[], [], fun _ => 0, fun _ => 0⟩

/-- One tick of the frame handler, after the user loop and the render:
mark everything in the previous snapshots unused, collect the current
references, dispose previous-snapshot entries still unused, and swap in
the new snapshots.  Returns the new state together with the texture and
geometry dispose-call sequences of this tick. -/
def frameStep (s : SceneFrame) (st : SweepState) : SweepState × (List Nat × List Nat) :=
  let texUsed1 := markUsed st.texList st.texUsed
  let geoUsed1 := markUsed st.geoList st.geoUsed
  let texCol := collect (sceneTexRefs s) texUsed1
  let geoCol := collect (sceneGeoRefs s) geoUsed1
  let dTex := checkAndDispose st.texList texCol.2
  let dGeo := checkAndDispose st.geoList geoCol.2
  (⟨texCol.1, geoCol.1, texCol.2, geoCol.2⟩, (dTex, dGeo))

/-- Sweep state after processing a sequence of frames from app start. -/
def stateAfter (frames : List SceneFrame) : SweepState :=
  frames.foldl (fun st s => (frameStep s st).1) initSweepState

/-- A frame with nothing in it. -/
def emptyFrame : SceneFrame := ⟨[], [], []⟩

/-- Texture dispose calls issued by the sweep of frame `t` (0-based). -/
def texDisposalsAt (frames : List SceneFrame) (t : Nat) : List Nat :=
  (frameStep (frames.getD t emptyFrame) (stateAfter (frames.take t))).2.1

/-- Geometry dispose calls issued by the sweep of frame `t` (0-based). -/
def geoDisposalsAt (frames : List SceneFrame) (t : Nat) : List Nat :=
  (frameStep (frames.getD t emptyFrame) (stateAfter (frames.take t))).2.2

/-- The texture references the sweep of frame `t` holds as its previous
snapshot: none before the first frame, the references of frame `t-1` after. -/
def prevTexRefs (frames : List SceneFrame) : Nat → List Nat
  | 0 => []
  | k + 1 => sceneTexRefs (frames.getD k emptyFrame)

/-- Geometry counterpart of `prevTexRefs`. -/
def prevGeoRefs (frames : List SceneFrame) : Nat → List Nat
  | 0 => []
  | k + 1 => sceneGeoRefs (frames.getD k emptyFrame)

/-! Basic lemmas about the collector primitives. -/

theorem collect_go (refs : List Nat) (acc : List Nat × (Nat → Nat)) :
    (refs.foldl (fun a id => updateUsed id a) acc).1 = acc.1 ++ refs ∧
    ∀ r, (refs.foldl (fun a id => updateUsed id a) acc).2 r = acc.2 r + refs.count r := by
  induction refs generalizing acc with
  | nil => simp
  | cons x xs ih =>
    obtain ⟨h1, h2⟩ := ih (updateUsed x acc)
    constructor
    · simpa [updateUsed] using h1
    · intro r
      have := h2 r
      simp only [List.foldl_cons] at *
      rw [this]
      simp only [updateUsed, bump, List.count_cons]
      by_cases hr : r = x
      · simp [hr]
        omega
      · simp [hr, Ne.symm hr]

theorem collect_fst (refs : List Nat) (used : Nat → Nat) :
    (collect refs used).1 = refs := by
  simpa [collect] using (collect_go refs ([], used)).1

theorem collect_snd (refs : List Nat) (used : Nat → Nat) (r : Nat) :
    (collect refs used).2 r = used r + refs.count r :=
  (collect_go refs ([], used)).2 r

theorem markUsed_eq (lst : List Nat) (used : Nat → Nat) (r : Nat) :
    markUsed lst used r = if r ∈ lst then 0 else used r := by
  induction lst generalizing used with
  | nil => simp [markUsed]
  | cons x xs ih =>
    simp only [markUsed, List.foldl_cons] at *
    rw [ih]
    by_cases hx : r = x
    · simp [hx]
    · by_cases hmem : r ∈ xs <;> simp [hx, hmem]

/-! The main sweep invariant: across frames, the counter of every
resource equals its multiplicity in the snapshot the handler holds. -/

def SweepInv (st : SweepState) : Prop :=
  (∀ r, st.texUsed r = st.texList.count r) ∧ (∀ r, st.geoUsed r = st.geoList.count r)

theorem markUsed_of_inv (lst : List Nat) (used : Nat → Nat)
    (h : ∀ r, used r = lst.count r) (r : Nat) :
    markUsed lst used r = 0 := by
  rw [markUsed_eq]
  by_cases hmem : r ∈ lst
  · simp [hmem]
  · simp [hmem, h r, List.count_eq_zero.mpr hmem]

theorem initSweepState_inv : SweepInv initSweepState := by
  constructor <;> intro r <;> simp [initSweepState]

theorem frameStep_state (s : SceneFrame) (st : SweepState) :
    (frameStep s st).1.texList = sceneTexRefs s ∧
    (frameStep s st).1.geoList = sceneGeoRefs s := by
  constructor <;> simp [frameStep, collect_fst]

theorem frameStep_inv (s : SceneFrame) (st : SweepState) (h : SweepInv st) :
    SweepInv (frameStep s st).1 := by
  obtain ⟨htex, hgeo⟩ := h
  constructor <;> intro r
  · rw [(frameStep_state s st).1]
    show (collect (sceneTexRefs s) (markUsed st.texList st.texUsed)).2 r = _
    rw [collect_snd, markUsed_of_inv _ _ htex]
    simp
  · rw [(frameStep_state s st).2]
    show (collect (sceneGeoRefs s) (markUsed st.geoList st.geoUsed)).2 r = _
    rw [collect_snd, markUsed_of_inv _ _ hgeo]
    simp

theorem frameStep_disposals (s : SceneFrame) (st : SweepState) (h : SweepInv st) :
    (frameStep s st).2.1
      = st.texList.filter (fun id => (sceneTexRefs s).count id == 0) ∧
    (frameStep s st).2.2
      = st.geoList.filter (fun id => (sceneGeoRefs s).count id == 0) := by
  obtain ⟨htex, hgeo⟩ := h
  constructor
  · show checkAndDispose st.texList
        (collect (sceneTexRefs s) (markUsed st.texList st.texUsed)).2 = _
    unfold checkAndDispose
    apply List.filter_congr
    intro x _
    rw [collect_snd, markUsed_of_inv _ _ htex]
    simp
  · show checkAndDispose st.geoList
        (collect (sceneGeoRefs s) (markUsed st.geoList st.geoUsed)).2 = _
    unfold checkAndDispose
    apply List.filter_congr
    intro x _
    rw [collect_snd, markUsed_of_inv _ _ hgeo]
    simp

theorem stateAfter_inv (frames : List SceneFrame) : SweepInv (stateAfter frames) := by
  suffices h : ∀ (fs : List SceneFrame) (st : SweepState), SweepInv st →
      SweepInv (fs.foldl (fun st s => (frameStep s st).1) st) by
    exact h frames initSweepState initSweepState_inv
  intro fs
  induction fs with
  | nil => intro st h; exact h
  | cons x xs ih =>
    intro st h
    exact ih _ (frameStep_inv x st h)

theorem stateAfter_take_texList (frames : List SceneFrame) (t : Nat)
    (ht : t ≤ frames.length) :
    (stateAfter (frames.take t)).texList = prevTexRefs frames t := by
  cases t with
  | zero => rfl
  | succ k =>
    have hk : k < frames.length := ht
    have htake : frames.take (k + 1) = frames.take k ++ [frames.getD k emptyFrame] := by
      rw [List.take_succ]
      have : frames[k]? = some frames[k] := List.getElem?_eq_getElem hk
      rw [List.getD_eq_getElem?_getD, this]
      simp
    rw [htake]
    show (List.foldl (fun st s => (frameStep s st).1) initSweepState _).texList = _
    rw [List.foldl_append]
    exact (frameStep_state _ _).1

theorem stateAfter_take_geoList (frames : List SceneFrame) (t : Nat)
    (ht : t ≤ frames.length) :
    (stateAfter (frames.take t)).geoList = prevGeoRefs frames t := by
  cases t with
  | zero => rfl
  | succ k =>
    have hk : k < frames.length := ht
    have htake : frames.take (k + 1) = frames.take k ++ [frames.getD k emptyFrame] := by
      rw [List.take_succ]
      have : frames[k]? = some frames[k] := List.getElem?_eq_getElem hk
      rw [List.getD_eq_getElem?_getD, this]
      simp
    rw [htake]
    show (List.foldl (fun st s => (frameStep s st).1) initSweepState _).geoList = _
    rw [List.foldl_append]
    exact (frameStep_state _ _).2

theorem texDisposalsAt_eq (frames : List SceneFrame) (t : Nat)
    (ht : t < frames.length) :
    texDisposalsAt frames t
      = (prevTexRefs frames t).filter
          (fun id => (sceneTexRefs (frames.getD t emptyFrame)).count id == 0) := by
  unfold texDisposalsAt
  rw [(frameStep_disposals _ _ (stateAfter_inv _)).1,
    stateAfter_take_texList frames t ht.le]

theorem geoDisposalsAt_eq (frames : List SceneFrame) (t : Nat)
    (ht : t < frames.length) :
    geoDisposalsAt frames t
      = (prevGeoRefs frames t).filter
          (fun id => (sceneGeoRefs (frames.getD t emptyFrame)).count id == 0) := by
  unfold geoDisposalsAt
  rw [(frameStep_disposals _ _ (stateAfter_inv _)).2,
    stateAfter_take_geoList frames t ht.le]

theorem texDisposalsAt_count (frames : List SceneFrame) (t R : Nat)
    (ht : t < frames.length) :
    (texDisposalsAt frames t).count R
      = if (sceneTexRefs (frames.getD t emptyFrame)).count R = 0
          then (prevTexRefs frames t).count R else 0 := by
  rw [texDisposalsAt_eq frames t ht]
  by_cases hc : (sceneTexRefs (frames.getD t emptyFrame)).count R = 0
  · rw [if_pos hc, List.count_filter (by simpa using hc)]
  · rw [if_neg hc, List.count_eq_zero]
    intro hmem
    have h2 := List.of_mem_filter hmem
    exact hc (by simpa using h2)

theorem geoDisposalsAt_count (frames : List SceneFrame) (t R : Nat)
    (ht : t < frames.length) :
    (geoDisposalsAt frames t).count R
      = if (sceneGeoRefs (frames.getD t emptyFrame)).count R = 0
          then (prevGeoRefs frames t).count R else 0 := by
  rw [geoDisposalsAt_eq frames t ht]
  by_cases hc : (sceneGeoRefs (frames.getD t emptyFrame)).count R = 0
  · rw [if_pos hc, List.count_filter (by simpa using hc)]
  · rw [if_neg hc, List.count_eq_zero]
    intro hmem
    have h2 := List.of_mem_filter hmem
    exact hc (by simpa using h2)

/-! A single view over the two resource populations the sweep manages:
textures and geometries are disjoint object sets, each with its own
snapshot list and dispose loop, but the handler treats them with the
same code path.  The kind-indexed functions below let one statement
cover every resource reachable from the queues or lights. -/

/-- Kind of a GPU resource tracked by the sweep. -/
inductive ResKind where
  | texture
  | geometry
deriving DecidableEq, Repr

/-- References of one kind recorded by the traversal of a frame. -/
def sceneRefs : ResKind → SceneFrame → List Nat
  | .texture, s => sceneTexRefs s
  | .geometry, s => sceneGeoRefs s

/-- Dispose calls of one kind issued by the sweep of frame `t`. -/
def disposalsAt : ResKind → List SceneFrame → Nat → List Nat
  | .texture, frames, t => texDisposalsAt frames t
  | .geometry, frames, t => geoDisposalsAt frames t

/-- Previous-snapshot references of one kind at the sweep of frame `t`. -/
def prevRefs : ResKind → List SceneFrame → Nat → List Nat
  | .texture, frames, t => prevTexRefs frames t
  | .geometry, frames, t => prevGeoRefs frames t

theorem prevRefs_zero (kind : ResKind) (frames : List SceneFrame) :
    prevRefs kind frames 0 = [] := by
  cases kind <;> rfl

theorem prevRefs_succ (kind : ResKind) (frames : List SceneFrame) (k : Nat) :
    prevRefs kind frames (k + 1) = sceneRefs kind (frames.getD k emptyFrame) := by
  cases kind <;> rfl

theorem disposalsAt_count (kind : ResKind) (frames : List SceneFrame) (t R : Nat)
    (ht : t < frames.length) :
    (disposalsAt kind frames t).count R
      = if (sceneRefs kind (frames.getD t emptyFrame)).count R = 0
          then (prevRefs kind frames t).count R else 0 := by
  cases kind
  · exact texDisposalsAt_count frames t R ht
  · exact geoDisposalsAt_count frames t R ht

/-! Load-state independence of the traversal. -/

/-- Rewrite the load state of one scene texture reference. -/
def mapTexState (f : LoadState → LoadState) (t : SceneTex) : SceneTex :=
  ⟨t.id, f t.state⟩

/-- Rewrite the load states inside one uniform value. -/
def mapUniformStates (f : LoadState → LoadState) : UniformSceneVal → UniformSceneVal
  | .tex t => .tex (mapTexState f t)
  | .arr items => .arr (items.map (Option.map (mapTexState f)))
  | .other => .other

/-- Rewrite the load states of every texture referenced by a frame,
leaving identities and structure untouched. -/
def mapFrameStates (f : LoadState → LoadState) (s : SceneFrame) : SceneFrame :=
  ⟨s.opaqueList.map (fun r => ⟨r.geometry, r.uniforms.map (mapUniformStates f)⟩),
   s.transparentList.map (fun r => ⟨r.geometry, r.uniforms.map (mapUniformStates f)⟩),
   s.lights.map (Option.map (mapTexState f))⟩

theorem texRefsOfUniform_mapStates (f : LoadState → LoadState) (u : UniformSceneVal) :
    texRefsOfUniform (mapUniformStates f u) = texRefsOfUniform u := by
  cases u with
  | tex t => rfl
  | arr items =>
    show List.filterMap (fun o => o.map SceneTex.id) (items.map (Option.map (mapTexState f)))
      = List.filterMap (fun o => o.map SceneTex.id) items
    rw [List.filterMap_map]
    apply List.filterMap_congr
    intro o _
    cases o <;> rfl
  | other => rfl

theorem texRefsOfRenderable_mapStates (f : LoadState → LoadState) (r : Renderable) :
    texRefsOfRenderable ⟨r.geometry, r.uniforms.map (mapUniformStates f)⟩
      = texRefsOfRenderable r := by
  show ((r.uniforms.map (mapUniformStates f)).map texRefsOfUniform).flatten
    = (r.uniforms.map texRefsOfUniform).flatten
  rw [List.map_map]
  congr 1
  apply List.map_congr_left
  intro u _
  exact texRefsOfUniform_mapStates f u

theorem sceneTexRefs_mapStates (f : LoadState → LoadState) (s : SceneFrame) :
    sceneTexRefs (mapFrameStates f s) = sceneTexRefs s := by
  unfold sceneTexRefs mapFrameStates
  congr 1
  · rw [← List.map_append, List.map_map]
    congr 1
    apply List.map_congr_left
    intro r _
    exact texRefsOfRenderable_mapStates f r
  · rw [List.filterMap_map]
    apply List.filterMap_congr
    intro o _
    cases o <;> rfl

theorem sceneGeoRefs_mapStates (f : LoadState → LoadState) (s : SceneFrame) :
    sceneGeoRefs (mapFrameStates f s) = sceneGeoRefs s := by
  unfold sceneGeoRefs mapFrameStates
  rw [← List.map_append, List.map_map]
  apply List.map_congr_left
  intro r _
  rfl

theorem sceneRefs_mapStates (kind : ResKind) (f : LoadState → LoadState) (s : SceneFrame) :
    sceneRefs kind (mapFrameStates f s) = sceneRefs kind s := by
  cases kind
  · exact sceneTexRefs_mapStates f s
  · exact sceneGeoRefs_mapStates f s

/-! The frame handler is registered only when the namespace object has a
`loop` callback; without it no sweep ever runs. -/

/-- The single kind of handler `App3D` can put on the timeline. -/
inductive FrameHandler where
  | sweep
deriving DecidableEq, Repr

/-- Embeds the conditional registration in the `App3D` constructor: the
frame handler is installed on the timeline only when the namespace
object carries a loop callback. -/
def App3D_handlers (hasLoop : Bool) : List FrameHandler :=
  if hasLoop then [.sweep] else []

/-- Dispose events produced per frame tick by the registered handlers:
without a registered handler a tick triggers nothing. -/
def runHandlers (hs : List FrameHandler) (frames : List SceneFrame) :
    List (List Nat × List Nat) :=
  match hs with
  | [] => frames.map (fun _ => ([], []))
  | _ :: _ =>
      (List.range frames.length).map (fun t => (texDisposalsAt frames t, geoDisposalsAt frames t))

/-! Concrete frames used by witnesses and counterexamples. -/

/-- One renderable whose material references texture 5 twice (a shared
texture recorded once per reference). -/
def sharedTexFrame : SceneFrame :=
  ⟨[⟨0, [.tex ⟨5, .ready⟩]⟩, ⟨1, [.tex ⟨5, .ready⟩]⟩], [], []⟩

/-- One renderable whose material references texture 7 twice through two
uniforms of the same material. -/
def doubleUniformFrame : SceneFrame :=
  ⟨[⟨0, [.tex ⟨7, .ready⟩, .tex ⟨7, .ready⟩]⟩], [], []⟩

/-- One renderable referencing texture 5 exactly once. -/
def oneTexFrame : SceneFrame :=
  ⟨[⟨0, [.tex ⟨5, .ready⟩]⟩], [], []⟩

/-- One renderable referencing the still-pending texture 3. -/
def pendingTexFrame : SceneFrame :=
  ⟨[⟨0, [.tex ⟨3, .pending⟩]⟩], [], []⟩

/-- One renderable carrying geometry 9 and no texture uniforms. -/
def oneGeoFrame : SceneFrame :=
  ⟨[⟨9, []⟩], [], []⟩

/-- C1 as stated is false: texture 5 is reachable exactly during frame
[0,0], but it is referenced by two renderables there, so the sweep
following frame 0 invokes dispose twice (once per reference recorded in
the previous snapshot), not exactly once. -/
theorem C1_counterexample :
    0 < (sceneTexRefs (([sharedTexFrame, emptyFrame] : List SceneFrame).getD 0 emptyFrame)).count 5 ∧
    (sceneTexRefs (([sharedTexFrame, emptyFrame] : List SceneFrame).getD 1 emptyFrame)).count 5 = 0 ∧
    (texDisposalsAt [sharedTexFrame, emptyFrame] 1).count 5 = 2 := by
  decide

/-- C1 amended: for either resource kind (texture or geometry), if
resource R of that kind is reachable from the render queues or lights
exactly during frames [a,b], the sweep never invokes dispose of R at any
sweep up to and including frame b, nor at any sweep after frame b+1; at
the sweep of frame b+1 dispose is invoked once per reference of R
recorded in the frame-b snapshot — in particular exactly once when R was
referenced exactly once in frame b. -/
theorem C1_sweep_disposes_after_last_live_frame (kind : ResKind)
    (frames : List SceneFrame) (R a b : Nat)
    (hb : b + 1 < frames.length)
    (hlive : ∀ t, t < frames.length →
      (0 < (sceneRefs kind (frames.getD t emptyFrame)).count R ↔ a ≤ t ∧ t ≤ b)) :
    (∀ t, t ≤ b → (disposalsAt kind frames t).count R = 0) ∧
    (disposalsAt kind frames (b + 1)).count R
        = (sceneRefs kind (frames.getD b emptyFrame)).count R ∧
    (∀ t, b + 1 < t → t < frames.length → (disposalsAt kind frames t).count R = 0) := by
  have hzero : ∀ u, u < frames.length → ¬(a ≤ u ∧ u ≤ b) →
      (sceneRefs kind (frames.getD u emptyFrame)).count R = 0 := by
    intro u hu hnab
    by_contra h0
    exact hnab ((hlive u hu).mp (Nat.pos_of_ne_zero h0))
  refine ⟨?_, ?_, ?_⟩
  · intro t htb
    have ht : t < frames.length := by omega
    rw [disposalsAt_count kind frames t R ht]
    by_cases hc : (sceneRefs kind (frames.getD t emptyFrame)).count R = 0
    · rw [if_pos hc]
      cases t with
      | zero => rw [prevRefs_zero]; rfl
      | succ k =>
        rw [prevRefs_succ]
        have hta : ¬(a ≤ k + 1 ∧ k + 1 ≤ b) := by
          intro hab
          exact absurd ((hlive (k + 1) ht).mpr hab) (by omega)
        have hka : k < a := by
          rcases Nat.lt_or_ge k a with h | h
          · exact h
          · exact absurd ⟨by omega, by omega⟩ hta
        exact hzero k (by omega) (by omega)
    · rw [if_neg hc]
  · rw [disposalsAt_count kind frames (b + 1) R hb,
      if_pos (hzero (b + 1) hb (by omega)), prevRefs_succ]
  · intro t h1 h2
    rw [disposalsAt_count kind frames t R h2,
      if_pos (hzero t h2 (by omega))]
    cases t with
    | zero => rw [prevRefs_zero]; rfl
    | succ k =>
      rw [prevRefs_succ]
      exact hzero k (by omega) (by omega)

/-- Witness for the amended C1 theorem, on the geometry sweep: geometry
9 is live exactly in frame 0 of a three-frame run and is disposed
exactly once, at the sweep of frame 1. -/
theorem C1_sweep_disposes_after_last_live_frame_witness :
    (∀ t, t ≤ 0 →
      (disposalsAt .geometry [oneGeoFrame, emptyFrame, emptyFrame] t).count 9 = 0) ∧
    (disposalsAt .geometry [oneGeoFrame, emptyFrame, emptyFrame] (0 + 1)).count 9
        = (sceneRefs .geometry
            (([oneGeoFrame, emptyFrame, emptyFrame] : List SceneFrame).getD 0 emptyFrame)).count 9 ∧
    (∀ t, 0 + 1 < t → t < ([oneGeoFrame, emptyFrame, emptyFrame] : List SceneFrame).length →
      (disposalsAt .geometry [oneGeoFrame, emptyFrame, emptyFrame] t).count 9 = 0) :=
  C1_sweep_disposes_after_last_live_frame .geometry [oneGeoFrame, emptyFrame, emptyFrame] 9 0 0
    (by decide) (by decide)

/-- C2: a resource of either kind (a geometry of a renderable, or a
texture referenced through a uniform, an array-valued uniform, or a
light cubemap) that is reachable from the live renderable graph during
frame t is never disposed by the sweep of frame t; moreover the
traversal is blind to load state: rewriting the load state of every
referenced texture (e.g. pending instead of ready) leaves the recorded
reference sequence of either kind unchanged, so reachability alone, not
load completion, determines liveness. -/
theorem C2_reachable_never_disposed (kind : ResKind) (frames : List SceneFrame) (t R : Nat)
    (ht : t < frames.length)
    (hreach : 0 < (sceneRefs kind (frames.getD t emptyFrame)).count R) :
    (disposalsAt kind frames t).count R = 0 ∧
    ∀ f, sceneRefs kind (mapFrameStates f (frames.getD t emptyFrame))
        = sceneRefs kind (frames.getD t emptyFrame) := by
  refine ⟨?_, fun f => sceneRefs_mapStates kind f _⟩
  rw [disposalsAt_count kind frames t R ht, if_neg (by omega)]

/-- Witness for C2: a still-pending texture referenced by the only
renderable is not disposed by the frame-0 sweep. -/
theorem C2_reachable_never_disposed_witness :
    (disposalsAt .texture [pendingTexFrame] 0).count 3 = 0 ∧
    ∀ f, sceneRefs .texture (mapFrameStates f (([pendingTexFrame] : List SceneFrame).getD 0 emptyFrame))
        = sceneRefs .texture (([pendingTexFrame] : List SceneFrame).getD 0 emptyFrame) :=
  C2_reachable_never_disposed .texture [pendingTexFrame] 0 3 (by decide) (by decide)

/-- C3 as stated is false: a texture referenced twice by the same
traversal (here through two uniforms of one material) is pushed to the
new snapshot once per reference, so the snapshot contains it twice, not
at most once. -/
theorem C3_counterexample :
    ((stateAfter [doubleUniformFrame]).texList).count 7 = 2 := by
  decide

/-- C3 amended: during the per-frame traversal a resource is appended to
the new snapshot every time it is encountered (not only on the 0 to 1
counter transition), and its counter is incremented each time; hence the
snapshot equals the full reference sequence of the frame and contains
each live resource with multiplicity equal to its reference count. -/
theorem C3_snapshot_is_reference_sequence (frames : List SceneFrame) (s : SceneFrame) :
    (stateAfter (frames ++ [s])).texList = sceneTexRefs s ∧
    (stateAfter (frames ++ [s])).geoList = sceneGeoRefs s ∧
    (∀ R, (stateAfter (frames ++ [s])).texUsed R = (sceneTexRefs s).count R) ∧
    (∀ R, (stateAfter (frames ++ [s])).geoUsed R = (sceneGeoRefs s).count R) := by
  have hstep : stateAfter (frames ++ [s]) = (frameStep s (stateAfter frames)).1 := by
    unfold stateAfter
    rw [List.foldl_append]
    rfl
  have hinv := frameStep_inv s (stateAfter frames) (stateAfter_inv frames)
  have hstate := frameStep_state s (stateAfter frames)
  rw [hstep]
  refine ⟨hstate.1, hstate.2, fun R => ?_, fun R => ?_⟩
  · rw [hinv.1 R, hstate.1]
  · rw [hinv.2 R, hstate.2]

/-- C9: constructed without a loop callback, the application registers
no frame handler on the timeline, so no matter how many frames elapse
the sweep never runs and every tick produces no dispose call at all. -/
theorem C9_no_loop_no_sweep (frames : List SceneFrame) :
    App3D_handlers false = [] ∧
    runHandlers (App3D_handlers false) frames = frames.map (fun _ => ([], [])) :=
  ⟨rfl, rfl⟩

/-! Loader bridge: texture loading (`loadTexture`, `loadTextureSync`). -/

/-- Eventual outcome of the asynchronous fetch/decode behind a texture:
the success callback fires, the error callback fires, or neither ever
fires (a stalled load). -/
inductive TexLoadEventual where
  | success
  | failure
  | never
deriving DecidableEq, Repr

/-- Dynamic kind of the `urlOrImg` argument, as tested by the source via
`typeof urlOrImg` and `isImageLikeElement`. -/
inductive SourceKind where
  | url
  | image
  | canvas
  | video
  | other
deriving DecidableEq, Repr

/-- Embeds `isImageLikeElement(val)`. -/
def isImageLikeElement : SourceKind → Bool
  | .image => true
  | .canvas => true
  | .video => true
  | _ => false

/-- A texture source: its dynamic kind, whether the constructed texture
reports `isRenderable()` right after synchronous construction (decided
by the external `Texture2D`, e.g. an already-decoded image), and the
eventual outcome of its asynchronous load. -/
structure TexSource where
  kind : SourceKind
  renderableNow : Bool
  eventual : TexLoadEventual
deriving DecidableEq, Repr

/-- The `Texture2D` resource object constructed by `loadTextureSync`:
`id` is the object identity of this particular `new Texture2D` call. -/
structure TexResource where
  id : Nat
  hasImage : Bool
  dynamic : Bool
  renderable : Bool
deriving DecidableEq, Repr

/-- Embeds `App3D.prototype.loadTextureSync`: construct a fresh texture;
a string source starts an asynchronous `load`, an image-like source is
attached directly (marked dynamic for video), anything else leaves the
texture empty. -/
def loadTextureSync (fresh : Nat) (src : TexSource) : TexResource :=
  if src.kind = .url then
    ⟨fresh, false, false, src.renderableNow⟩
  else if isImageLikeElement src.kind then
    ⟨fresh, true, src.kind = .video, src.renderableNow⟩
  else
    ⟨fresh, false, false, src.renderableNow⟩

/-- Observable settlement of the promise returned by `loadTexture`:
resolved with a resource (immediately, or later via the success
callback), rejected via the error callback, or forever pending. -/
inductive TexPromise where
  | resolved (r : TexResource) (immediate : Bool)
  | rejected
  | pending
deriving DecidableEq, Repr

/-- Embeds `App3D.prototype.loadTexture`: build the texture through
`loadTextureSync`; resolve at once when it is already renderable,
otherwise resolve with the same object on its success callback and
reject on its error callback. -/
def loadTexture (fresh : Nat) (src : TexSource) : TexPromise :=
  let texture := loadTextureSync fresh src
  if texture.renderable then .resolved texture true
  else
    match src.eventual with
    | .success => .resolved texture false
    | .failure => .rejected
    | .never => .pending

/-! Loader bridge: model loading (`loadModel`). -/

/-- Behaviour of one constituent texture of a loaded model, as observed
by the wait-for-textures join: already renderable when mapped, settling
at some time (successfully or not), or never settling. -/
inductive TexBehavior where
  | renderable
  | settles (time : Nat) (ok : Bool)
  | never
deriving DecidableEq, Repr

/-- Settlement time of the per-texture promise built inside the join:
`Promise.resolve(texture)` for an already renderable texture, and a
promise resolved by both the success and the error callback otherwise,
so an erroring texture still resolves it. -/
def texPromiseSettle : TexBehavior → Option Nat
  | .renderable => some 0
  | .settles t _ => some t
  | .never => none

/-- Whether a constituent texture eventually settles (ready or error). -/
def texSettles (b : TexBehavior) : Bool :=
  (texPromiseSettle b).isSome

/-- Whether a constituent texture settles with an error. -/
def texFails : TexBehavior → Bool
  | .settles _ ok => !ok
  | _ => false

/-- Settlement time of a settling texture (0 for a never-settling one,
unused in that case). -/
def texSettleTime (b : TexBehavior) : Nat :=
  (texPromiseSettle b).getD 0

/-- Join of two settlement times: the later of the two, pending if
either never settles. -/
def joinSettle : Option Nat → Option Nat → Option Nat
  | some a, some b => some (max a b)
  | _, _ => none

/-- Embeds `Promise.all` over promises that can only resolve: it
resolves once the last one has (the empty aggregate resolves at once),
and stays pending if any constituent never resolves. -/
def promiseAll : List (Option Nat) → Option Nat
  | [] => some 0
  | x :: xs => joinSettle x (promiseAll xs)

/-- What the external GLTF loader reports: structural failure (its error
callback) or structural success with the constituent textures. -/
inductive LoaderOutcome where
  | structuralError
  | success (textures : List TexBehavior)
deriving DecidableEq, Repr

/-- Observable settlement of the promise returned by `loadModel`. -/
inductive ModelPromise where
  | resolvedAt (t : Nat)
  | rejected
  | pending
deriving DecidableEq, Repr

/-- One run of the promise body of `loadModel`: how the returned promise
settles, and the times at which `afterLoad` inserts the root node into
the scene (one entry per `scene.add(result.rootNode)` call). -/
structure ModelLoadRun where
  promise : ModelPromise
  insertions : List Nat
deriving DecidableEq, Repr

/-- Embeds the promise body of `App3D.prototype.loadModel`: reject on
loader error; on loader success insert immediately unless
`waitTextureLoaded`, in which case insertion and resolution are deferred
to the settle-all join over the constituent textures (whose per-texture
promises resolve on success and on error alike, so the join never
rejects and the catch branch is dead). -/
def loadModelRun (waitTextureLoaded : Bool) (outcome : LoaderOutcome) : ModelLoadRun :=
  match outcome with
  | .structuralError => ⟨.rejected, []⟩
  | .success texs =>
    if !waitTextureLoaded then ⟨.resolvedAt 0, [0]⟩
    else
      match promiseAll (texs.map texPromiseSettle) with
      | some T => ⟨.resolvedAt T, [T]⟩
      | none => ⟨.pending, []⟩

/-- The `url` argument of `loadModel`, as seen by its `typeof` check. -/
inductive UrlArg where
  | str (s : String)
  | nonString
deriving DecidableEq, Repr

/-- Result of calling `loadModel`: either the call throws synchronously
(`new Error` on a non-string url) or it returns a promise. -/
inductive LoadModelCall where
  | thrown
  | returned (run : ModelLoadRun)
deriving DecidableEq, Repr

/-- Embeds the entry of `App3D.prototype.loadModel`, including the
synchronous `typeof url !== string` guard. -/
def loadModel (url : UrlArg) (waitTextureLoaded : Bool) (outcome : LoaderOutcome) :
    LoadModelCall :=
  match url with
  | .nonString => .thrown
  | .str _ => .returned (loadModelRun waitTextureLoaded outcome)

theorem promiseAll_of_settled (texs : List TexBehavior)
    (h : ∀ b ∈ texs, texSettles b = true) :
    ∃ T, promiseAll (texs.map texPromiseSettle) = some T ∧
      ∀ b ∈ texs, texSettleTime b ≤ T := by
  induction texs with
  | nil => exact ⟨0, rfl, by simp⟩
  | cons x xs ih =>
    obtain ⟨T, hT, hle⟩ := ih (fun b hb => h b (List.mem_cons_of_mem x hb))
    have hx : (texPromiseSettle x).isSome := h x (List.mem_cons_self x xs)
    obtain ⟨tx, htx⟩ := Option.isSome_iff_exists.mp hx
    refine ⟨max tx T, ?_, ?_⟩
    · show joinSettle (texPromiseSettle x) (promiseAll (xs.map texPromiseSettle))
          = some (max tx T)
      rw [htx, hT]
      rfl
    · intro b hb
      rcases List.mem_cons.mp hb with hbx | hbxs
      · subst hbx
        have : texSettleTime b = tx := by rw [texSettleTime, htx]; rfl
        omega
      · exact le_trans (hle b hbxs) (le_max_right tx T)

/-- C4: with `waitTextureLoaded` set and a structurally successful load
whose N constituent textures all settle, with k < N of them failing, the
root node is inserted into the scene exactly once, and the insertion
time is no earlier than the settlement time of every one of the N
textures, irrespective of how many failed. -/
theorem C4_wait_inserts_once_after_all_settled (texs : List TexBehavior) (N k : Nat)
    (hN : texs.length = N) (hk : (texs.filter texFails).length = k)
    (hkN : k < N) (hset : ∀ b ∈ texs, texSettles b = true) :
    ∃ T, (loadModelRun true (.success texs)).insertions = [T] ∧
      ∀ b ∈ texs, texSettleTime b ≤ T := by
  obtain ⟨T, hT, hle⟩ := promiseAll_of_settled texs hset
  refine ⟨T, ?_, hle⟩
  simp [loadModelRun, hT]

/-- Witness for C4: two textures, one failing at time 3 and one
succeeding at time 1; insertion happens exactly once, at time 3. -/
theorem C4_wait_inserts_once_after_all_settled_witness :
    ∃ T, (loadModelRun true (.success [.settles 3 false, .settles 1 true])).insertions = [T] ∧
      ∀ b ∈ ([.settles 3 false, .settles 1 true] : List TexBehavior), texSettleTime b ≤ T :=
  C4_wait_inserts_once_after_all_settled [.settles 3 false, .settles 1 true] 2 1
    (by decide) (by decide) (by decide) (by decide)

/-- C5: the promise returned by `loadModel` rejects exactly when the
external loader reports structural failure; under either insertion
policy, constituent texture failures (absorbed by the settle-all join,
whose per-texture promises resolve on error) never reject it. -/
theorem C5_rejects_iff_structural_failure (wait : Bool) (outcome : LoaderOutcome) :
    (loadModelRun wait outcome).promise = .rejected ↔ outcome = .structuralError := by
  cases outcome with
  | structuralError => simp [loadModelRun]
  | success texs =>
    have hne : (loadModelRun wait (.success texs)).promise ≠ .rejected := by
      cases wait with
      | false => simp [loadModelRun]
      | true =>
        unfold loadModelRun
        cases hpa : promiseAll (texs.map texPromiseSettle) <;> simp [hpa]
    exact ⟨fun h => absurd h hne, fun h => nomatch h⟩

/-- C6: the promise returned by `loadTexture` resolves with the very
resource object `loadTextureSync` constructs for that call: immediately
when the texture is already renderable, on the success callback
otherwise, and it rejects on the error callback. -/
theorem C6_loadTexture_resolves_with_sync_object (fresh : Nat) (src : TexSource) :
    ((loadTextureSync fresh src).renderable = true →
        loadTexture fresh src = .resolved (loadTextureSync fresh src) true) ∧
    ((loadTextureSync fresh src).renderable = false → src.eventual = .success →
        loadTexture fresh src = .resolved (loadTextureSync fresh src) false) ∧
    ((loadTextureSync fresh src).renderable = false → src.eventual = .failure →
        loadTexture fresh src = .rejected) ∧
    (∀ r b, loadTexture fresh src = .resolved r b → r = loadTextureSync fresh src) := by
  refine ⟨?_, ?_, ?_, ?_⟩
  · intro h
    simp [loadTexture, h]
  · intro h hs
    simp [loadTexture, h, hs]
  · intro h hs
    simp [loadTexture, h, hs]
  · intro r b h
    unfold loadTexture at h
    by_cases hr : (loadTextureSync fresh src).renderable
    · rw [if_pos hr] at h
      cases h
      rfl
    · rw [if_neg hr] at h
      cases hs : src.eventual <;> rw [hs] at h <;> cases h
      rfl

/-- Witness for C6: a url texture that is not yet renderable and whose
load eventually succeeds resolves later with the synchronously
constructed resource. -/
theorem C6_loadTexture_resolves_with_sync_object_witness :
    loadTexture 0 ⟨.url, false, .success⟩
      = .resolved (loadTextureSync 0 ⟨.url, false, .success⟩) false :=
  (C6_loadTexture_resolves_with_sync_object 0 ⟨.url, false, .success⟩).2.1 (by decide) rfl

/-- C10: calling `loadModel` with a non-string url throws an `Error`
synchronously at the call site instead of returning a rejected promise,
whereas a structural load failure on a string url surfaces as rejection
of the returned promise. -/
theorem C10_nonstring_url_throws (wait : Bool) (outcome : LoaderOutcome) (s : String) :
    loadModel .nonString wait outcome = .thrown ∧
    loadModel (.str s) wait .structuralError = .returned ⟨.rejected, []⟩ :=
  ⟨rfl, rfl⟩

/-! Loader bridge: material construction (`createMaterial`). -/

/-- Declared type of a uniform: a texture sampler (`t`) or anything
else. -/
inductive UniformType where
  | t
  | other
deriving DecidableEq, Repr

/-- Value held by a uniform: a number, a texture resource, a raw
non-texture value passed through verbatim, or null (unset). -/
inductive UniformValue where
  | num (v : Int)
  | tex (r : TexResource)
  | raw (s : TexSource)
  | null
deriving DecidableEq, Repr

/-- One declared uniform: its type and current value. -/
structure UniformDecl where
  type : UniformType
  value : UniformValue
deriving DecidableEq, Repr

/-- A shader as obtained from `shaderLibrary.get`: its declared uniforms
with their default values. -/
structure Shader where
  uniforms : List (String × UniformDecl)
deriving DecidableEq, Repr

/-- The Material object: its uniform table plus the `transparent` and
`depthMask` render-state flags. -/
structure Material where
  uniforms : List (String × UniformDecl)
  transparent : Bool
  depthMask : Bool
deriving DecidableEq, Repr

/-- Modelled from the spec: the `Material` constructor lives outside the
embedded source (only `new Material({shader: ...})` is called from it).
Per the data model a fresh material carries the declared uniforms of its
shader with their default values, is opaque, and has depth-mask writes
enabled, so that a `transparent: true` config entry can force them off. -/
def newMaterial (sh : Shader) : Material :=
  ⟨sh.uniforms, false, true⟩

/-- Modelled from the spec: `material.setUniform(key, value)` (defined
outside the embedded source) assigns `value` to the declared uniform
named `key`, leaving its declared type and all other uniforms intact. -/
def Material.setUniform (m : Material) (key : String) (v : UniformValue) : Material :=
  { m with uniforms :=
      m.uniforms.map (fun kv => if kv.1 = key then (kv.1, ⟨kv.2.type, v⟩) else kv) }

/-- Value supplied for one config key: a plain number, or a texture
source (a url string or an image-like element). -/
inductive ConfigVal where
  | num (v : Int)
  | src (s : TexSource)
deriving DecidableEq, Repr

/-- Embeds `isImageLikeElement(val)` on a config value. -/
def isImageLikeCfg : ConfigVal → Bool
  | .src s => isImageLikeElement s.kind
  | .num _ => false

/-- The texture source handed to `loadTexture` for a config value; a
non-source value yields an empty texture that never becomes renderable. -/
def cfgToTexSource : ConfigVal → TexSource
  | .src s => s
  | .num _ => ⟨.other, false, .never⟩

/-- Uniform value assigned synchronously by `setUniform(key, val)` for a
non-texture config value. -/
def cfgValToUniform : ConfigVal → UniformValue
  | .num v => .num v
  | .src s => .raw s

/-- Embeds the branch condition of the config loop:
`material.uniforms[key].type === t || isImageLikeElement(val)`. -/
def isTextureAssign (d : UniformDecl) (v : ConfigVal) : Bool :=
  d.type == .t || isImageLikeCfg v

/-- The material config: the resolved shader, the `transparent` flag,
the (initially absent) `depthMask` property, and the uniform-candidate
entries.  The `shader` and `transparent` keys of the source config are
modelled as the separate fields; with the builtin shaders neither name
collides with a declared uniform. -/
structure MatConfig where
  shader : Shader
  transparent : Bool
  depthMask : Option Bool
  entries : List (String × ConfigVal)
deriving DecidableEq, Repr

/-- State accumulated by the config loop: the material being filled in
and the texture loads started so far (fire-and-forget), each with its
target uniform key. -/
structure CreateMaterialResult where
  material : Material
  pendingLoads : List (String × TexSource)
deriving DecidableEq, Repr

/-- One iteration of the config loop of `createMaterial`: skip keys with
no matching declared uniform; start a texture load for texture-typed or
image-like values; set every other value synchronously. -/
def createMaterialStep (acc : CreateMaterialResult) (kv : String × ConfigVal) :
    CreateMaterialResult :=
  match acc.material.uniforms.lookup kv.1 with
  | none => acc
  | some d =>
    if isTextureAssign d kv.2 then
      ⟨acc.material, acc.pendingLoads ++ [(kv.1, cfgToTexSource kv.2)]⟩
    else
      ⟨acc.material.setUniform kv.1 (cfgValToUniform kv.2), acc.pendingLoads⟩

/-- Embeds `App3D.prototype.createMaterial`: run the config loop, then
the transparent branch — which, as written in the source, mutates the
config object (`matConfig.depthMask`, `matConfig.transparent`), not the
material.  Returns the loop result together with the config object as
it stands after the call. -/
def createMaterial (cfg : MatConfig) : CreateMaterialResult × MatConfig :=
  let r := cfg.entries.foldl createMaterialStep ⟨newMaterial cfg.shader, []⟩
  let cfg2 :=
    if cfg.transparent then { cfg with depthMask := some false, transparent := true }
    else cfg
  (r, cfg2)

/-- Settlement of the fire-and-forget texture loads started by
`createMaterial`: each load that resolves assigns its texture to its
target uniform (`material.setUniform(key, texture)` via the `then`
continuation); a rejected or forever-pending load assigns nothing, and
no rejection handler exists, so no error surfaces.  Loads are applied in
list order; with distinct keys the order is immaterial. -/
def settleTextureLoads (fresh : Nat) (m : Material) :
    List (String × TexSource) → Material
  | [] => m
  | (key, src) :: rest =>
    match loadTexture fresh src with
    | .resolved r _ => settleTextureLoads (fresh + 1) (m.setUniform key (.tex r)) rest
    | _ => settleTextureLoads (fresh + 1) m rest

/-- The material once every texture load started by `createMaterial` has
settled (or stalled). -/
def createMaterialFinal (cfg : MatConfig) (fresh : Nat) : Material :=
  settleTextureLoads fresh (createMaterial cfg).1.material (createMaterial cfg).1.pendingLoads

/-! Lemmas about `setUniform` and the config loop. -/

theorem lookup_map_replace (l : List (String × UniformDecl)) (k key : String)
    (v : UniformValue) :
    List.lookup k (l.map fun kv => if kv.1 = key then (kv.1, ⟨kv.2.type, v⟩) else kv)
      = (List.lookup k l).map (fun d => if k = key then ⟨d.type, v⟩ else d) := by
  induction l with
  | nil => rfl
  | cons x xs ih =>
    obtain ⟨xk, xd⟩ := x
    simp only [List.map_cons]
    by_cases hx : xk = key
    · simp only [if_pos (show (xk, xd).1 = key from hx)]
      by_cases hk : k = xk
      · subst hk
        have hkey : k = key := hx
        simp [List.lookup, hkey]
      · have hbeq : (k == xk) = false := by simp [hk]
        simp [List.lookup, hbeq, ih]
    · simp only [if_neg (show ¬(xk, xd).1 = key from hx)]
      by_cases hk : k = xk
      · subst hk
        have hkey : ¬k = key := hx
        simp [List.lookup, hkey]
      · have hbeq : (k == xk) = false := by simp [hk]
        simp [List.lookup, hbeq, ih]

theorem setUniform_lookup_ne (m : Material) (k key : String) (v : UniformValue)
    (h : k ≠ key) :
    List.lookup k (m.setUniform key v).uniforms = List.lookup k m.uniforms := by
  show List.lookup k (m.uniforms.map _) = _
  rw [lookup_map_replace]
  cases List.lookup k m.uniforms <;> simp [h]

theorem setUniform_lookup_eq (m : Material) (key : String) (v : UniformValue) :
    List.lookup key (m.setUniform key v).uniforms
      = (List.lookup key m.uniforms).map (fun d => ⟨d.type, v⟩) := by
  show List.lookup key (m.uniforms.map _) = _
  rw [lookup_map_replace]
  cases List.lookup key m.uniforms <;> simp

theorem setUniform_flags (m : Material) (key : String) (v : UniformValue) :
    (m.setUniform key v).transparent = m.transparent ∧
    (m.setUniform key v).depthMask = m.depthMask :=
  ⟨rfl, rfl⟩

theorem createMaterialFold_other_keys (entries : List (String × ConfigVal))
    (acc : CreateMaterialResult) (k : String) (hk : ∀ e ∈ entries, e.1 ≠ k) :
    List.lookup k (entries.foldl createMaterialStep acc).material.uniforms
        = List.lookup k acc.material.uniforms ∧
    (entries.foldl createMaterialStep acc).pendingLoads.filter (fun p => p.1 == k)
        = acc.pendingLoads.filter (fun p => p.1 == k) := by
  induction entries generalizing acc with
  | nil => exact ⟨rfl, rfl⟩
  | cons e es ih =>
    have he : e.1 ≠ k := hk e (List.mem_cons_self e es)
    have hes : ∀ x ∈ es, x.1 ≠ k := fun x hx => hk x (List.mem_cons_of_mem e hx)
    obtain ⟨ih1, ih2⟩ := ih (createMaterialStep acc e) hes
    rw [List.foldl_cons] at *
    have hstep : List.lookup k (createMaterialStep acc e).material.uniforms
          = List.lookup k acc.material.uniforms ∧
        (createMaterialStep acc e).pendingLoads.filter (fun p => p.1 == k)
          = acc.pendingLoads.filter (fun p => p.1 == k) := by
      unfold createMaterialStep
      cases hl : List.lookup e.1 acc.material.uniforms with
      | none => exact ⟨rfl, rfl⟩
      | some d =>
        by_cases ht : isTextureAssign d e.2
        · refine ⟨by simp [ht], ?_⟩
          simp only [ht, if_true, List.filter_append]
          have : ((e.1, cfgToTexSource e.2) :: []).filter (fun p => p.1 == k) = [] := by
            simp [he]
          rw [this, List.append_nil]
        · refine ⟨?_, by simp [ht]⟩
          simp only [ht, Bool.false_eq_true, if_false]
          exact setUniform_lookup_ne acc.material k e.1 (cfgValToUniform e.2) he.symm
    exact ⟨ih1.trans hstep.1, ih2.trans hstep.2⟩

theorem entries_split (entries : List (String × ConfigVal)) (k : String) (v : ConfigVal)
    (hnodup : (entries.map Prod.fst).Nodup) (hmem : (k, v) ∈ entries) :
    ∃ pre post, entries = pre ++ (k, v) :: post ∧
      (∀ e ∈ pre, e.1 ≠ k) ∧ (∀ e ∈ post, e.1 ≠ k) := by
  obtain ⟨pre, post, rfl⟩ := List.append_of_mem hmem
  rw [List.map_append, List.map_cons] at hnodup
  obtain ⟨hpre, hmid, hdisj⟩ := List.nodup_append.mp hnodup
  refine ⟨pre, post, rfl, ?_, ?_⟩
  · intro e he hek
    exact hdisj (List.mem_map_of_mem Prod.fst he) (by simp [hek])
  · intro e he hek
    have hk : (k : String) ∉ post.map Prod.fst := (List.nodup_cons.mp hmid).1
    exact hk (hek ▸ List.mem_map_of_mem Prod.fst he)

theorem createMaterialSync_spec (cfg : MatConfig) (k : String) (v : ConfigVal)
    (d : UniformDecl)
    (hnodup : (cfg.entries.map Prod.fst).Nodup)
    (hmem : (k, v) ∈ cfg.entries)
    (hdecl : List.lookup k cfg.shader.uniforms = some d) :
    (isTextureAssign d v = false →
        List.lookup k (createMaterial cfg).1.material.uniforms
            = some ⟨d.type, cfgValToUniform v⟩ ∧
        (createMaterial cfg).1.pendingLoads.filter (fun p => p.1 == k) = []) ∧
    (isTextureAssign d v = true →
        List.lookup k (createMaterial cfg).1.material.uniforms = some d ∧
        (createMaterial cfg).1.pendingLoads.filter (fun p => p.1 == k)
            = [(k, cfgToTexSource v)]) := by
  obtain ⟨pre, post, hsplit, hpre, hpost⟩ := entries_split cfg.entries k v hnodup hmem
  have hfold : (createMaterial cfg).1
      = post.foldl createMaterialStep
          (createMaterialStep (pre.foldl createMaterialStep ⟨newMaterial cfg.shader, []⟩) (k, v)) := by
    show cfg.entries.foldl createMaterialStep ⟨newMaterial cfg.shader, []⟩ = _
    rw [hsplit, List.foldl_append, List.foldl_cons]
  obtain ⟨hpre1, hpre2⟩ :=
    createMaterialFold_other_keys pre ⟨newMaterial cfg.shader, []⟩ k hpre
  have hlook : List.lookup k (pre.foldl createMaterialStep
      ⟨newMaterial cfg.shader, []⟩).material.uniforms = some d := by
    rw [hpre1]
    exact hdecl
  have hpend : (pre.foldl createMaterialStep
      ⟨newMaterial cfg.shader, []⟩).pendingLoads.filter (fun p => p.1 == k) = [] := by
    rw [hpre2]
    rfl
  set accPre := pre.foldl createMaterialStep ⟨newMaterial cfg.shader, []⟩ with hacc
  constructor
  · intro ht
    have hstep : createMaterialStep accPre (k, v)
        = ⟨accPre.material.setUniform k (cfgValToUniform v), accPre.pendingLoads⟩ := by
      unfold createMaterialStep
      rw [hlook]
      simp [ht]
    obtain ⟨hp1, hp2⟩ := createMaterialFold_other_keys post
      ⟨accPre.material.setUniform k (cfgValToUniform v), accPre.pendingLoads⟩ k hpost
    rw [hfold, hstep]
    refine ⟨?_, by rw [hp2]; exact hpend⟩
    rw [hp1]
    show List.lookup k (accPre.material.setUniform k (cfgValToUniform v)).uniforms = _
    rw [setUniform_lookup_eq, hlook]
    rfl
  · intro ht
    have hstep : createMaterialStep accPre (k, v)
        = ⟨accPre.material, accPre.pendingLoads ++ [(k, cfgToTexSource v)]⟩ := by
      unfold createMaterialStep
      rw [hlook]
      simp [ht]
    obtain ⟨hp1, hp2⟩ := createMaterialFold_other_keys post
      ⟨accPre.material, accPre.pendingLoads ++ [(k, cfgToTexSource v)]⟩ k hpost
    rw [hfold, hstep]
    refine ⟨by rw [hp1]; exact hlook, ?_⟩
    rw [hp2]
    show (accPre.pendingLoads ++ [(k, cfgToTexSource v)]).filter (fun p => p.1 == k) = _
    rw [List.filter_append, hpend]
    simp

theorem loadTextureSync_renderable (fresh : Nat) (s : TexSource) :
    (loadTextureSync fresh s).renderable = s.renderableNow := by
  rw [loadTextureSync]
  split_ifs <;> rfl

theorem loadTexture_not_resolved (fresh : Nat) (s : TexSource)
    (h : ¬(s.renderableNow = true ∨ s.eventual = .success)) :
    ∀ r b, loadTexture fresh s ≠ .resolved r b := by
  intro r b
  push_neg at h
  obtain ⟨h1, h2⟩ := h
  have hb : s.renderableNow = false := by simpa using h1
  simp only [loadTexture, loadTextureSync_renderable, hb, Bool.false_eq_true, if_false]
  cases hs : s.eventual
  · exact absurd hs h2
  · simp
  · simp

theorem loadTexture_resolved_of (fresh : Nat) (s : TexSource)
    (h : s.renderableNow = true ∨ s.eventual = .success) :
    ∃ r b, loadTexture fresh s = .resolved r b := by
  by_cases hr : s.renderableNow = true
  · refine ⟨loadTextureSync fresh s, true, ?_⟩
    simp only [loadTexture, loadTextureSync_renderable, hr, if_true]
  · have hb : s.renderableNow = false := by simpa using hr
    have hs : s.eventual = .success := h.resolve_left (fun hn => hr hn)
    refine ⟨loadTextureSync fresh s, false, ?_⟩
    simp only [loadTexture, loadTextureSync_renderable, hb, Bool.false_eq_true, if_false, hs]

theorem settle_other_keys (loads : List (String × TexSource)) (fresh : Nat)
    (m : Material) (k : String)
    (h : loads.filter (fun p => p.1 == k) = []) :
    List.lookup k (settleTextureLoads fresh m loads).uniforms
      = List.lookup k m.uniforms := by
  induction loads generalizing fresh m with
  | nil => rfl
  | cons x xs ih =>
    obtain ⟨key, src⟩ := x
    by_cases hp : (key == k) = true
    · rw [List.filter_cons_of_pos (by simpa using hp)] at h
      exact absurd h (by simp)
    · rw [List.filter_cons_of_neg (by simpa using hp)] at h
      have hne : k ≠ key := fun he => hp (by simp [he])
      show List.lookup k (settleTextureLoads fresh m ((key, src) :: xs)).uniforms = _
      unfold settleTextureLoads
      cases hload : loadTexture fresh src with
      | resolved r b =>
        rw [ih (fresh + 1) (m.setUniform key (.tex r)) h]
        exact setUniform_lookup_ne m k key (.tex r) hne
      | rejected => exact ih (fresh + 1) m h
      | pending => exact ih (fresh + 1) m h

theorem settle_key_spec (loads : List (String × TexSource)) (fresh : Nat)
    (m : Material) (k : String) (src : TexSource) (d : UniformDecl)
    (h : loads.filter (fun p => p.1 == k) = [(k, src)])
    (hm : List.lookup k m.uniforms = some d) :
    (¬(src.renderableNow = true ∨ src.eventual = .success) →
        List.lookup k (settleTextureLoads fresh m loads).uniforms = some d) ∧
    ((src.renderableNow = true ∨ src.eventual = .success) →
        ∃ r : TexResource, List.lookup k (settleTextureLoads fresh m loads).uniforms
          = some ⟨d.type, .tex r⟩) := by
  induction loads generalizing fresh m with
  | nil => exact absurd h (by simp)
  | cons x xs ih =>
    obtain ⟨key, src2⟩ := x
    by_cases hp : (key == k) = true
    · rw [List.filter_cons_of_pos (by simpa using hp)] at h
      injection h with hhead hrest
      injection hhead with hkey hsrc
      subst hkey
      subst hsrc
      constructor
      · intro hno
        show List.lookup key (settleTextureLoads fresh m ((key, src2) :: xs)).uniforms = some d
        unfold settleTextureLoads
        cases hload : loadTexture fresh src2 with
        | resolved r b => exact absurd hload (loadTexture_not_resolved fresh src2 hno r b)
        | rejected => rw [settle_other_keys xs (fresh + 1) m key hrest]; exact hm
        | pending => rw [settle_other_keys xs (fresh + 1) m key hrest]; exact hm
      · intro hyes
        obtain ⟨r, b, hload⟩ := loadTexture_resolved_of fresh src2 hyes
        refine ⟨r, ?_⟩
        show List.lookup key (settleTextureLoads fresh m ((key, src2) :: xs)).uniforms
          = some ⟨d.type, .tex r⟩
        unfold settleTextureLoads
        rw [hload, settle_other_keys xs (fresh + 1) _ key hrest,
          setUniform_lookup_eq, hm]
        rfl
    · rw [List.filter_cons_of_neg (by simpa using hp)] at h
      have hne : k ≠ key := fun he => hp (by simp [he])
      have step : ∀ m2 : Material, List.lookup k m2.uniforms = some d →
          (¬(src.renderableNow = true ∨ src.eventual = .success) →
              List.lookup k (settleTextureLoads (fresh + 1) m2 xs).uniforms = some d) ∧
          ((src.renderableNow = true ∨ src.eventual = .success) →
              ∃ r : TexResource, List.lookup k (settleTextureLoads (fresh + 1) m2 xs).uniforms
                = some ⟨d.type, .tex r⟩) :=
        fun m2 hm2 => ih (fresh + 1) m2 h hm2
      show (¬_ → List.lookup k (settleTextureLoads fresh m ((key, src2) :: xs)).uniforms = some d) ∧ _
      unfold settleTextureLoads
      cases hload : loadTexture fresh src2 with
      | resolved r b =>
        exact step (m.setUniform key (.tex r))
          ((setUniform_lookup_ne m k key (.tex r) hne).trans hm)
      | rejected => exact step m hm
      | pending => exact step m hm

/-- C7: `createMaterial` returns a material for every config with no
error surfacing (the model functions are total and never produce an
error value; a rejected load has no rejection handler).  For a config
key `k` matching a declared uniform: a non-texture value is assigned
synchronously, already at return time, and settlement leaves it alone; a
texture-typed or image-like value leaves the uniform at its declared
pre-load default at return time, and the asynchronous assignment happens
exactly when that texture load resolves — on load failure (or a stalled
load) the uniform still holds its pre-load default after settlement. -/
theorem C7_createMaterial_texture_policy (cfg : MatConfig) (fresh : Nat) (k : String)
    (v : ConfigVal) (d : UniformDecl)
    (hnodup : (cfg.entries.map Prod.fst).Nodup)
    (hmem : (k, v) ∈ cfg.entries)
    (hdecl : List.lookup k cfg.shader.uniforms = some d) :
    (isTextureAssign d v = false →
        List.lookup k (createMaterial cfg).1.material.uniforms
            = some ⟨d.type, cfgValToUniform v⟩ ∧
        List.lookup k (createMaterialFinal cfg fresh).uniforms
            = some ⟨d.type, cfgValToUniform v⟩) ∧
    (isTextureAssign d v = true →
        List.lookup k (createMaterial cfg).1.material.uniforms = some d ∧
        (¬((cfgToTexSource v).renderableNow = true ∨ (cfgToTexSource v).eventual = .success) →
            List.lookup k (createMaterialFinal cfg fresh).uniforms = some d) ∧
        (((cfgToTexSource v).renderableNow = true ∨ (cfgToTexSource v).eventual = .success) →
            ∃ r : TexResource, List.lookup k (createMaterialFinal cfg fresh).uniforms
              = some ⟨d.type, .tex r⟩)) := by
  obtain ⟨hsync1, hsync2⟩ := createMaterialSync_spec cfg k v d hnodup hmem hdecl
  constructor
  · intro ht
    obtain ⟨hval, hpend⟩ := hsync1 ht
    refine ⟨hval, ?_⟩
    unfold createMaterialFinal
    rw [settle_other_keys _ fresh _ k hpend]
    exact hval
  · intro ht
    obtain ⟨hval, hpend⟩ := hsync2 ht
    obtain ⟨hskip, hassign⟩ :=
      settle_key_spec (createMaterial cfg).1.pendingLoads fresh
        (createMaterial cfg).1.material k (cfgToTexSource v) d hpend hval
    exact ⟨hval, hskip, hassign⟩

/-- Shader used by the C7 witness: one texture sampler uniform `d`
defaulting to null and one scalar uniform `a` defaulting to 1. -/
def witnessShader : Shader :=
  ⟨[("d", ⟨.t, .null⟩), ("a", ⟨.other, .num 1⟩)]⟩

/-- Config used by the C7 witness: the texture key gets a url whose load
fails, the scalar key gets the number 5. -/
def witnessConfig : MatConfig :=
  ⟨witnessShader, false, none, [("d", .src ⟨.url, false, .failure⟩), ("a", .num 5)]⟩

/-- Witness for C7: the texture uniform of a failing load keeps its
declared null default both at return time and after settlement. -/
theorem C7_createMaterial_texture_policy_witness :
    List.lookup "d" (createMaterial witnessConfig).1.material.uniforms
        = some ⟨UniformType.t, UniformValue.null⟩ ∧
    (¬((cfgToTexSource (.src ⟨.url, false, .failure⟩)).renderableNow = true ∨
          (cfgToTexSource (.src ⟨.url, false, .failure⟩)).eventual = .success) →
        List.lookup "d" (createMaterialFinal witnessConfig 0).uniforms
          = some ⟨UniformType.t, UniformValue.null⟩) ∧
    (((cfgToTexSource (.src ⟨.url, false, .failure⟩)).renderableNow = true ∨
          (cfgToTexSource (.src ⟨.url, false, .failure⟩)).eventual = .success) →
        ∃ r : TexResource, List.lookup "d" (createMaterialFinal witnessConfig 0).uniforms
          = some ⟨UniformType.t, UniformValue.tex r⟩) :=
  (C7_createMaterial_texture_policy witnessConfig 0 "d" (.src ⟨.url, false, .failure⟩)
      ⟨.t, .null⟩ (by decide) (by decide) (by decide)).2 (by decide)

/-- C8 fails on the code: for the config with `transparent: true` the
transparent branch of `createMaterial` assigns to the config object, not
to the material, so the returned material still has its constructor
defaults (depth-mask writes on, not transparent) while the config object
ends up mutated — the claimed forcing never reaches the material. -/
theorem C8_transparent_config_not_applied :
    ((createMaterial ⟨witnessShader, true, none, []⟩).1.material.transparent = false ∧
     (createMaterial ⟨witnessShader, true, none, []⟩).1.material.depthMask = true) ∧
    ((createMaterial ⟨witnessShader, true, none, []⟩).2.depthMask = some false ∧
     (createMaterial ⟨witnessShader, true, none, []⟩).2.transparent = true) := by
  decide

end ClayApp
